import Mathlib

/-!
Verification of the session/attendance reconciliation core of the
employee-productivity tracker.  The Python source
(`core/session_manager.py`, `api/attendance_api.py`) is shallowly embedded:

* UTC instants are modelled as `Int` seconds (the source subtracts
  `datetime` values and works with the resulting seconds).
* The attendance server is modelled by a boolean `api_ok` parameter giving
  the outcome of a remote call; an exception raised by the HTTP layer
  behaves like `api_ok = false` (both leave `erp_break_open` untouched).
* ISO-datetime parsing of `apply_server_totals` arguments is modelled by
  passing the already-parsed `Option Int` (`none` for absent/unparseable).
* Persistence of `sleep_events` is modelled as a list carried in the
  session; display-only artefacts of the source (activity-percent window,
  screenshots, app-usage map, history rows) are not part of any claim and
  are not carried.
-/

namespace Tracker

/-!  ## Duration codec

Python `str` values are modelled as `List Char`.  `f-string` zero-padded
decimal rendering is modelled by `natDigitsPad2`, Python `int(text)` by
`pyIntOfChars` (restricted to the ASCII digit/sign forms the tracker ever
produces), and `text.split(":", 2)` by `splitColonLimit2`.
-/

/-- The decimal digit character for `d` (`d` is always below 10 here). -/
def digitChar (d : Nat) : Char :=
  match d with
  | 0 => '0' | 1 => '1' | 2 => '2' | 3 => '3' | 4 => '4'
  | 5 => '5' | 6 => '6' | 7 => '7' | 8 => '8' | _ => '9'

/-- Numeric value of an ASCII digit character. -/
def digitVal (c : Char) : Option Nat :=
  if 48 ≤ c.toNat ∧ c.toNat ≤ 57 then some (c.toNat - 48) else none

/-- Left-to-right decimal accumulation, `none` on a non-digit. -/
def parseDigitsAux : List Char → Nat → Option Nat
  | [], acc => some acc
  | c :: cs, acc =>
    match digitVal c with
    | some d => parseDigitsAux cs (acc * 10 + d)
    | none => none

/-- Python `int(text)` on the strings this program produces: an optional
sign followed by at least one ASCII digit; anything else raises (here:
`none`). -/
def pyIntOfChars (l : List Char) : Option Int :=
  match l with
  | [] => none
  | c :: cs =>
    if c = '-' then
      if cs = [] then none else (parseDigitsAux cs 0).map (fun n => -(n : Int))
    else if c = '+' then
      if cs = [] then none else (parseDigitsAux cs 0).map (fun n => (n : Int))
    else (parseDigitsAux l 0).map (fun n => (n : Int))

/-- The decimal digits of `n`, most significant first; `fuel` bounds the
recursion depth and any `fuel > n` is enough. -/
def natDigitsAux : Nat → Nat → List Char
  | 0, _ => []
  | fuel + 1, n =>
    if n < 10 then [digitChar n]
    else natDigitsAux fuel (n / 10) ++ [digitChar (n % 10)]

/-- Decimal rendering of a natural number, as Python `str(n)`. -/
def natDigits (n : Nat) : List Char := natDigitsAux (n + 1) n

/-- Python `f"{n:02d}"` for non-negative `n`: pad to width 2 with zeros. -/
def natDigitsPad2 (n : Nat) : List Char :=
  List.replicate (2 - (natDigits n).length) '0' ++ natDigits n

/-- Python `text.split(":", 2)`: at most two splits, the tail keeps any
further colons. -/
def splitColonLimit2 (l : List Char) : List (List Char) :=
  let a := l.takeWhile (fun c => c != ':')
  match l.dropWhile (fun c => c != ':') with
  | [] => [a]
  | _ :: r1 =>
    let b := r1.takeWhile (fun c => c != ':')
    match r1.dropWhile (fun c => c != ':') with
    | [] => [a, b]
    | _ :: r3 => [a, b, r3]

namespace AttendanceAPI

/-- `AttendanceAPI._format_hms`.  Every call site first clamps the value
to be non-negative (`max(0, ...)`), so the embedding renders the
non-negative part. -/
def format_hms (total_seconds : Int) : List Char :=
  natDigitsPad2 (total_seconds.toNat / 3600) ++ ':' ::
    natDigitsPad2 (total_seconds.toNat % 3600 / 60) ++ ':' ::
    natDigitsPad2 (total_seconds.toNat % 60)

/-- `AttendanceAPI._parse_hms`: split on at most two colons, parse each
part as an int, left-pad missing leading parts with zero, and return 0 on
any parse failure (`except: return 0`).  The guard `hms or "00:00:00"`
replaces only the empty string. -/
def parse_hms (hms : List Char) : Int :=
  match (splitColonLimit2
      (if hms = [] then ['0', '0', ':', '0', '0', ':', '0', '0'] else hms)).mapM
      pyIntOfChars with
  | none => 0
  | some parts =>
    match List.replicate (3 - parts.length) 0 ++ parts with
    | [h, m, sec] => h * 3600 + m * 60 + sec
    | _ => 0

end AttendanceAPI

/-- `SessionState` enum of `core/session_manager.py`. -/
inductive SessionState
  | logged_out
  | clocked_in
  | on_break
  | idle
deriving DecidableEq

/-- `IDLE_TIMEOUT_SECONDS = 5 * 60` from `config.py`. -/
def IDLE_TIMEOUT_SECONDS : Int := 5 * 60

/-- The UTC calendar date of an instant, modelled as the day number. -/
def tsDate (t : Int) : Int := Int.fdiv t 86400

/-- One persisted sleep event (`_record_sleep_event`). -/
structure SleepEvent where
  date : Int
  sleep_start : Int
  wake_time : Int
  duration_seconds : Int
deriving DecidableEq

/-- The mutable fields of `SessionManager` that the verified claims touch. -/
structure Session where
  state : SessionState
  session_start : Option Int
  break_start : Option Int
  last_update : Option Int
  is_idle : Bool
  current_idle_seconds : Int
  active_seconds : Int
  break_seconds : Int
  idle_seconds : Int
  erp_in_time : Option Int
  erp_out_time : Option Int
  erp_break_seconds : Option Int
  erp_active_seconds : Option Int
  erp_state_hint : Option SessionState
  erp_override_timestamp : Int
  erp_break_open : Bool
  sleep_break_active : Bool
  sleep_gap_prehandled : Bool
  last_tick : Option Int
  sleep_events : List SleepEvent
deriving DecidableEq

namespace SessionManager

/-- `SessionManager.__init__`: the session starts logged out with every
counter zero and every override cleared. -/
def initSession : Session where
  state := SessionState.logged_out
  session_start := none
  break_start := none
  last_update := none
  is_idle := false
  current_idle_seconds := 0
  active_seconds := 0
  break_seconds := 0
  idle_seconds := 0
  erp_in_time := none
  erp_out_time := none
  erp_break_seconds := none
  erp_active_seconds := none
  erp_state_hint := none
  erp_override_timestamp := 0
  erp_break_open := false
  sleep_break_active := false
  sleep_gap_prehandled := false
  last_tick := none
  sleep_events := []

/-- `SessionManager._clear_erp_overrides`. -/
def clear_erp_overrides (s : Session) : Session :=
  { s with
    erp_in_time := none
    erp_out_time := none
    erp_break_seconds := none
    erp_active_seconds := none
    erp_state_hint := none
    erp_override_timestamp := 0
    erp_break_open := false }

/-- `SessionManager._accumulate_until_now`, with `now` passed explicitly. -/
def accumulate_until_now (s : Session) (now : Int) : Session :=
  match s.last_update with
  | none => { s with last_update := some now }
  | some lu =>
    let delta := now - lu
    if delta ≤ 0 then s
    else if s.state = SessionState.clocked_in then
      if s.is_idle then
        if IDLE_TIMEOUT_SECONDS ≤ s.current_idle_seconds then
          { s with break_seconds := s.break_seconds + delta, last_update := some now }
        else
          { s with idle_seconds := s.idle_seconds + delta, last_update := some now }
      else
        { s with active_seconds := s.active_seconds + delta, last_update := some now }
    else if s.state = SessionState.on_break then
      { s with break_seconds := s.break_seconds + delta, last_update := some now }
    else
      { s with last_update := some now }

/-- `SessionManager.clock_in`.  The remote `punch_in` call changes no
session field.  The background suspend-monitor thread records its first
tick as it starts, and the source's temporary test patch seeds one
synthetic 5-minute sleep event when the store holds none. -/
def clock_in (s : Session) (now : Int) : Session :=
  let s := { s with
    state := SessionState.clocked_in
    session_start := some now
    last_update := some now }
  let s := clear_erp_overrides s
  let s := { s with
    break_start := none
    is_idle := false
    current_idle_seconds := 0
    active_seconds := 0
    break_seconds := 0
    idle_seconds := 0
    last_tick := some now }
  if s.sleep_events = [] then
    { s with sleep_events := [⟨tsDate now, now - 300, now, 300⟩] }
  else s

/-- `SessionManager.clock_out`: flushes accumulation, persists a history
row (not modelled), stops the workers and returns to logged-out.  The
remote `punch_out` call changes no session field. -/
def clock_out (s : Session) (now : Int) : Session :=
  let s := accumulate_until_now s now
  { s with state := SessionState.logged_out }

/-- Result of an operation that may talk to the attendance server:
the updated session, the boolean returned to the caller, and how many
remote break-start calls the operation issued. -/
structure OpResult where
  session : Session
  ok : Bool
  remote_break_starts : Nat
deriving DecidableEq

/-- `SessionManager.start_break`.  `api_ok` is the outcome of the remote
break-start call when one is sent. -/
def start_break (s : Session) (now : Int) (api_ok : Bool) : OpResult :=
  if s.state ≠ SessionState.clocked_in ∨ s.break_start ≠ none then
    ⟨s, false, 0⟩
  else
    let s := accumulate_until_now s now
    let s := { s with state := SessionState.on_break, break_start := some now }
    if s.erp_break_open then
      ⟨s, true, 0⟩
    else
      let s := if api_ok then { s with erp_break_open := true } else s
      ⟨s, true, 1⟩

/-- `SessionManager.end_break`.  `api_ok` is the outcome of the remote
break-end call (an HTTP exception behaves like `false`). -/
def end_break (s : Session) (force : Bool) (now : Int) (api_ok : Bool) : OpResult :=
  if s.state ≠ SessionState.on_break ∧ (¬force ∨ s.break_start = none) then
    ⟨s, false, 0⟩
  else
    let s := { s with state := SessionState.on_break }
    let s := accumulate_until_now s now
    let s := { s with state := SessionState.clocked_in }
    let s := if api_ok then { s with erp_break_open := false } else s
    ⟨{ s with break_start := none, sleep_break_active := false }, true, 0⟩

/-- `SessionManager.update_activity` (the activity-percent rolling window
is display-only and not modelled). -/
def update_activity (s : Session) (is_active : Bool) (idle_secs : Int) (now : Int) : Session :=
  accumulate_until_now
    { s with is_idle := ¬is_active, current_idle_seconds := idle_secs } now

/-- `SessionManager.apply_server_totals`.  The ISO-datetime arguments are
passed already parsed (`none` when absent or unparseable). -/
def apply_server_totals (s : Session)
    (in_time out_time : Option Int) (break_secs active_secs : Option Int)
    (on_break : Option Bool) (now : Int) : Session :=
  let r :=
    match in_time with
    | some in_dt =>
      let s := { s with erp_in_time := some in_dt }
      let s :=
        match s.session_start with
        | none => { s with session_start := some in_dt }
        | some t0 => if in_dt < t0 then { s with session_start := some in_dt } else s
      (s, true)
    | none => (s, false)
  let r :=
    match out_time with
    | some out_dt => ({ r.1 with erp_out_time := some out_dt }, true)
    | none => r
  let r :=
    match break_secs with
    | some b => ({ r.1 with erp_break_seconds := some (max 0 b) }, true)
    | none => r
  let r :=
    match active_secs with
    | some a => ({ r.1 with erp_active_seconds := some (max 0 a) }, true)
    | none => r
  let r :=
    match on_break with
    | some b =>
      ({ r.1 with
          erp_state_hint :=
            some (if b then SessionState.on_break else SessionState.clocked_in)
          erp_break_open := b }, true)
    | none => r
  if r.2 then
    let s := { r.1 with erp_override_timestamp := now }
    let s :=
      match s.erp_state_hint with
      | some hint =>
        if s.state ≠ SessionState.logged_out then { s with state := hint } else s
      | none => s
    { s with last_update := some now }
  else r.1

/-- `SessionManager._record_sleep_event`: appends one event to the
persisted list (the best-effort server log call changes no field). -/
def record_sleep_event (s : Session) (sleep_start wake_time dur : Int) : Session :=
  { s with
    sleep_events := s.sleep_events ++ [⟨tsDate wake_time, sleep_start, wake_time, dur⟩] }

/-- Tick interval of `_power_monitor_loop`. -/
def monitor_interval_seconds : Int := 10

/-- One iteration of the `_power_monitor_loop` body.  The remote
break-start call issued for a synthesized sleep break is counted in
`remote_break_starts`; its outcome is only logged by the source, so no
`api_ok` parameter is needed. -/
def power_tick (s : Session) (now : Int) : OpResult :=
  match s.last_tick with
  | none => ⟨{ s with last_tick := some now }, true, 0⟩
  | some tick =>
    let elapsed := now - tick
    let gap := elapsed - monitor_interval_seconds
    if 60 < gap then
      let sleep_duration := max 0 (elapsed - monitor_interval_seconds)
      let sleep_start := now - sleep_duration
      let r :=
        if s.state = SessionState.clocked_in ∨ s.state = SessionState.on_break then
          let r :=
            if ¬s.sleep_gap_prehandled ∧ s.state = SessionState.clocked_in
                ∧ s.break_start = none then
              let s := accumulate_until_now s now
              (({ s with
                  state := SessionState.on_break
                  break_start := some sleep_start
                  sleep_break_active := true } : Session), 1)
            else (s, 0)
          (({ r.1 with
              break_seconds := r.1.break_seconds + sleep_duration
              sleep_gap_prehandled := false } : Session), r.2)
        else (s, 0)
      let s := { r.1 with last_update := some now }
      let s := record_sleep_event s sleep_start now sleep_duration
      ⟨{ s with last_tick := some now }, true, r.2⟩
    else
      ⟨{ s with last_tick := some now }, true, 0⟩

/-- `SessionManager._format_hms` (identical arithmetic to
`AttendanceAPI._format_hms`; the `int()` truncation of the float argument
is the identity in this integer-seconds model, and every call site clamps
to a non-negative value). -/
def format_hms (total_seconds : Int) : List Char :=
  natDigitsPad2 (total_seconds.toNat / 3600) ++ ':' ::
    natDigitsPad2 (total_seconds.toNat % 3600 / 60) ++ ':' ::
    natDigitsPad2 (total_seconds.toNat % 60)

/-- The dict returned by `SessionManager.get_daily_summary`. -/
structure DailySummary where
  total_active_time : List Char
  total_break_time : List Char
  total_idle_time : List Char
deriving DecidableEq

/-- `SessionManager.get_daily_summary`: flushes accumulation, then merges
local buckets with the `erp_*` overrides.  Returns the summary together
with the session mutated by the flush. -/
def get_daily_summary (s : Session) (now : Int) : DailySummary × Session :=
  let s := accumulate_until_now s now
  let break_total := max 0 s.break_seconds
  let break_total :=
    match s.erp_break_seconds with
    | some b => max 0 b
    | none => break_total
  let idle_total := max 0 s.idle_seconds
  let active_total :=
    match s.erp_active_seconds with
    | some a => max 0 a
    | none =>
      let start_dt :=
        match s.erp_in_time with
        | some t => some t
        | none => s.session_start
      match start_dt with
      | none => s.active_seconds
      | some start_t =>
        let effective_end :=
          match s.erp_out_time with
          | some t => t
          | none =>
            match s.last_update with
            | some lu => if s.state = SessionState.logged_out then lu else now
            | none => now
        let effective_end := if effective_end < start_t then now else effective_end
        let total_elapsed := max 0 (effective_end - start_t)
        max 0 (total_elapsed - break_total)
  (⟨format_hms active_total, format_hms break_total, format_hms idle_total⟩, s)

/-- Sessions reachable from the initial state by any sequence of the
public operations (each with arbitrary instants and remote outcomes). -/
inductive Reach : Session → Prop
  | init : Reach initSession
  | clockIn (s : Session) (now : Int) : Reach s → Reach (clock_in s now)
  | clockOut (s : Session) (now : Int) : Reach s → Reach (clock_out s now)
  | startBreak (s : Session) (now : Int) (ok : Bool) :
      Reach s → Reach (start_break s now ok).session
  | endBreak (s : Session) (force : Bool) (now : Int) (ok : Bool) :
      Reach s → Reach (end_break s force now ok).session
  | updateActivity (s : Session) (a : Bool) (idle : Int) (now : Int) :
      Reach s → Reach (update_activity s a idle now)
  | applyServerTotals (s : Session) (it ot bs acts : Option Int) (ob : Option Bool) (now : Int) :
      Reach s → Reach (apply_server_totals s it ot bs acts ob now)
  | flush (s : Session) (now : Int) : Reach s → Reach (accumulate_until_now s now)
  | tick (s : Session) (now : Int) : Reach s → Reach (power_tick s now).session

/-- Sessions reachable when `clock_out` is only invoked while not on a
break and `apply_server_totals` is never handed an `on_break` value — the
restriction under which the break-start/state invariant is provable. -/
inductive ReachR : Session → Prop
  | init : ReachR initSession
  | clockIn (s : Session) (now : Int) : ReachR s → ReachR (clock_in s now)
  | clockOut (s : Session) (now : Int) :
      s.state ≠ SessionState.on_break → ReachR s → ReachR (clock_out s now)
  | startBreak (s : Session) (now : Int) (ok : Bool) :
      ReachR s → ReachR (start_break s now ok).session
  | endBreak (s : Session) (force : Bool) (now : Int) (ok : Bool) :
      ReachR s → ReachR (end_break s force now ok).session
  | updateActivity (s : Session) (a : Bool) (idle : Int) (now : Int) :
      ReachR s → ReachR (update_activity s a idle now)
  | applyServerTotals (s : Session) (it ot bs acts : Option Int) (now : Int) :
      ReachR s → ReachR (apply_server_totals s it ot bs acts none now)
  | flush (s : Session) (now : Int) : ReachR s → ReachR (accumulate_until_now s now)
  | tick (s : Session) (now : Int) : ReachR s → ReachR (power_tick s now).session

/-- The claimed invariant: a break-start instant is recorded exactly while
the session is on a break. -/
def BreakInv (s : Session) : Prop :=
  s.break_start ≠ none ↔ s.state = SessionState.on_break

instance (s : Session) : Decidable (BreakInv s) := by
  unfold BreakInv; infer_instance

/-- Clock in at 0, start a break at 5, clock out at 10 while still on the
break: `clock_out` never clears `break_start`. -/
def cexClockOutOnBreak : Session :=
  clock_out (start_break (clock_in initSession 0) 5 true).session 10

/-- Clock in at 0, start a break at 5 (remote call succeeds, so
`erp_break_open` is set), end it at 10 with the remote break-end call
failing: `erp_break_open` stays true while the session is clocked in with
no open local break. -/
def cexSleepDupBreak : Session :=
  (end_break (start_break (clock_in initSession 0) 5 true).session false 10 false).session

/-- Clock in at 0 and clock out at 10: logged out, with the suspend
monitor's last tick still recorded at 0. -/
def cexLoggedOutTick : Session :=
  clock_out (clock_in initSession 0) 10

end SessionManager

/-! ## Codec lemmas -/

theorem digitVal_digitChar {d : Nat} (h : d < 10) : digitVal (digitChar d) = some d := by
  interval_cases d <;> decide

theorem digitChar_ne_colon (d : Nat) : digitChar d ≠ ':' := by
  unfold digitChar; split <;> decide

theorem digitChar_ne_dash (d : Nat) : digitChar d ≠ '-' := by
  unfold digitChar; split <;> decide

theorem digitChar_ne_plus (d : Nat) : digitChar d ≠ '+' := by
  unfold digitChar; split <;> decide

theorem natDigitsAux_mem {fuel n : Nat} {c : Char} (hc : c ∈ natDigitsAux fuel n) :
    ∃ d, c = digitChar d := by
  induction fuel generalizing n with
  | zero => simp [natDigitsAux] at hc
  | succ fuel ih =>
    unfold natDigitsAux at hc
    split at hc
    · simp at hc; exact ⟨n, hc⟩
    · rcases List.mem_append.mp hc with h | h
      · exact ih h
      · simp at h; exact ⟨n % 10, h⟩

theorem parseDigitsAux_append_some {l1 : List Char} {acc a : Nat}
    (h : parseDigitsAux l1 acc = some a) (l2 : List Char) :
    parseDigitsAux (l1 ++ l2) acc = parseDigitsAux l2 a := by
  induction l1 generalizing acc with
  | nil =>
    simp only [parseDigitsAux, Option.some.injEq] at h
    subst h
    simp
  | cons c cs ih =>
    cases hdv : digitVal c with
    | none => simp [parseDigitsAux, hdv] at h
    | some d =>
      simp only [parseDigitsAux, hdv] at h
      simpa [parseDigitsAux, hdv] using ih h

theorem parseDigitsAux_natDigitsAux {fuel n : Nat} (h : n < fuel) (acc : Nat) :
    parseDigitsAux (natDigitsAux fuel n) acc =
      some (acc * 10 ^ (natDigitsAux fuel n).length + n) := by
  induction fuel generalizing n acc with
  | zero => omega
  | succ fuel ih =>
    unfold natDigitsAux
    split
    · next h10 =>
      simp [parseDigitsAux, digitVal_digitChar h10]
    · next h10 =>
      have hdiv : n / 10 < fuel := by
        have h1 : n / 10 < n := Nat.div_lt_self (by omega) (by omega)
        omega
      have hmod : n % 10 < 10 := Nat.mod_lt n (by omega)
      rw [parseDigitsAux_append_some (ih hdiv acc)]
      simp only [parseDigitsAux, digitVal_digitChar hmod, List.length_append,
        List.length_cons, List.length_nil, Nat.zero_add]
      congr 1
      have hn := Nat.div_add_mod n 10
      calc (acc * 10 ^ (natDigitsAux fuel (n / 10)).length + n / 10) * 10 + n % 10
          = acc * (10 ^ (natDigitsAux fuel (n / 10)).length * 10)
              + (10 * (n / 10) + n % 10) := by ring
        _ = acc * (10 ^ (natDigitsAux fuel (n / 10)).length * 10) + n := by rw [hn]
        _ = acc * 10 ^ ((natDigitsAux fuel (n / 10)).length + 1) + n := by
              rw [pow_succ]

theorem digitVal_zero_char : digitVal '0' = some 0 := by decide

theorem parseDigitsAux_replicate_zeros (m : Nat) (l : List Char) :
    parseDigitsAux (List.replicate m '0' ++ l) 0 = parseDigitsAux l 0 := by
  induction m with
  | zero => simp
  | succ m ih =>
    simp only [List.replicate_succ, List.cons_append, parseDigitsAux, digitVal_zero_char]
    simpa using ih

theorem natDigits_ne_nil (n : Nat) : natDigits n ≠ [] := by
  unfold natDigits natDigitsAux
  split <;> simp

theorem parseDigitsAux_natDigits (n : Nat) :
    parseDigitsAux (natDigits n) 0 = some n := by
  have h := parseDigitsAux_natDigitsAux (show n < n + 1 by omega) 0
  simpa [natDigits] using h

theorem pyIntOfChars_natDigitsPad2 (k : Nat) :
    pyIntOfChars (natDigitsPad2 k) = some (k : Int) := by
  have hparse : parseDigitsAux (natDigitsPad2 k) 0 = some k := by
    unfold natDigitsPad2
    rw [parseDigitsAux_replicate_zeros]
    exact parseDigitsAux_natDigits k
  obtain ⟨c, cs, hcons, hc⟩ :
      ∃ c cs, natDigitsPad2 k = c :: cs ∧ (c = '0' ∨ ∃ d, c = digitChar d) := by
    cases hrep : 2 - (natDigits k).length with
    | zero =>
      cases hnd : natDigits k with
      | nil => exact absurd hnd (natDigits_ne_nil k)
      | cons c cs =>
        refine ⟨c, cs, ?_, Or.inr ?_⟩
        · unfold natDigitsPad2
          rw [hrep, hnd]
          simp
        · have hmem : c ∈ natDigits k := by rw [hnd]; simp
          exact natDigitsAux_mem (by simpa [natDigits] using hmem)
    | succ m =>
      refine ⟨'0', List.replicate m '0' ++ natDigits k, ?_, Or.inl rfl⟩
      unfold natDigitsPad2
      rw [hrep]
      simp [List.replicate_succ]
  have hdash : c ≠ '-' := by
    rcases hc with rfl | ⟨d, rfl⟩
    · decide
    · exact digitChar_ne_dash d
  have hplus : c ≠ '+' := by
    rcases hc with rfl | ⟨d, rfl⟩
    · decide
    · exact digitChar_ne_plus d
  rw [hcons] at hparse ⊢
  simp [pyIntOfChars, hdash, hplus, hparse]

theorem takeWhile_append_all {p : Char → Bool} :
    ∀ (a l : List Char), (∀ c ∈ a, p c) → (a ++ l).takeWhile p = a ++ l.takeWhile p
  | [], l, _ => by simp
  | x :: xs, l, h => by
    have hx : p x = true := h x (List.mem_cons_self x xs)
    have ih := takeWhile_append_all xs l (fun c hc => h c (List.mem_cons_of_mem x hc))
    simp [List.takeWhile_cons, hx, ih]

theorem dropWhile_append_all {p : Char → Bool} :
    ∀ (a l : List Char), (∀ c ∈ a, p c) → (a ++ l).dropWhile p = l.dropWhile p
  | [], l, _ => by simp
  | x :: xs, l, h => by
    have hx : p x = true := h x (List.mem_cons_self x xs)
    have ih := dropWhile_append_all xs l (fun c hc => h c (List.mem_cons_of_mem x hc))
    simp [List.dropWhile_cons, hx, ih]

theorem splitColonLimit2_parts (a b c : List Char)
    (ha : ∀ x ∈ a, x ≠ ':') (hb : ∀ x ∈ b, x ≠ ':') :
    splitColonLimit2 (a ++ ':' :: (b ++ ':' :: c)) = [a, b, c] := by
  have pa : ∀ x ∈ a, (x != ':') = true := fun x hx => by simpa using ha x hx
  have pb : ∀ x ∈ b, (x != ':') = true := fun x hx => by simpa using hb x hx
  unfold splitColonLimit2
  rw [takeWhile_append_all a _ pa, dropWhile_append_all a _ pa]
  simp only [List.takeWhile_cons, List.dropWhile_cons]
  norm_num
  rw [takeWhile_append_all b _ pb, dropWhile_append_all b _ pb]
  simp only [List.takeWhile_cons, List.dropWhile_cons]
  norm_num

theorem natDigitsPad2_ne_colon (k : Nat) : ∀ x ∈ natDigitsPad2 k, x ≠ ':' := by
  intro x hx
  unfold natDigitsPad2 at hx
  rcases List.mem_append.mp hx with h | h
  · have := List.eq_of_mem_replicate h
    subst this; decide
  · obtain ⟨d, rfl⟩ := natDigitsAux_mem (by simpa [natDigits] using h)
    exact digitChar_ne_colon d

theorem parse_format_roundtrip (s : Nat) :
    AttendanceAPI.parse_hms (AttendanceAPI.format_hms (s : Int)) = (s : Int) := by
  have hsec : ((s : Int)).toNat = s := Int.toNat_natCast s
  have hformat : AttendanceAPI.format_hms (s : Int) =
      natDigitsPad2 (s / 3600) ++ ':' ::
        (natDigitsPad2 (s % 3600 / 60) ++ ':' :: natDigitsPad2 (s % 60)) := by
    unfold AttendanceAPI.format_hms
    rw [hsec]
    simp
  rw [hformat]
  have hne : natDigitsPad2 (s / 3600) ++ ':' ::
      (natDigitsPad2 (s % 3600 / 60) ++ ':' :: natDigitsPad2 (s % 60)) ≠ [] := by
    intro h
    have h2 := (List.append_eq_nil.mp h).2
    simp at h2
  unfold AttendanceAPI.parse_hms
  rw [if_neg hne,
    splitColonLimit2_parts _ _ _ (natDigitsPad2_ne_colon _) (natDigitsPad2_ne_colon _)]
  simp only [List.mapM_cons, List.mapM_nil, pyIntOfChars_natDigitsPad2,
    Option.pure_def, Option.bind_eq_bind, Option.some_bind, List.length_cons,
    List.length_nil]
  show (↑(s / 3600) * 3600 + ↑(s % 3600 / 60) * 60 + ↑(s % 60) : Int) = ↑s
  omega

/-- C8: for every integer `s` in `[0, 999999]`, parsing the zero-padded
colon-delimited rendering of `s` gives back `s`
(`parse(format(s)) == s`). -/
theorem hms_codec_roundtrip (s : Nat) (h : s ≤ 999999) :
    AttendanceAPI.parse_hms (AttendanceAPI.format_hms (s : Int)) = (s : Int) :=
  parse_format_roundtrip s

theorem hms_codec_roundtrip_witness :
    (999999 : Nat) ≤ 999999 ∧
      AttendanceAPI.parse_hms (AttendanceAPI.format_hms ((999999 : Nat) : Int)) =
        ((999999 : Nat) : Int) :=
  ⟨by decide, hms_codec_roundtrip 999999 (by decide)⟩

/-! ## Accumulator lemmas and claims -/

namespace SessionManager

theorem accumulate_state (s : Session) (now : Int) :
    (accumulate_until_now s now).state = s.state := by
  unfold accumulate_until_now
  rcases hlu : s.last_update with _ | lu <;> simp [hlu] <;> split_ifs <;> simp

theorem accumulate_break_start (s : Session) (now : Int) :
    (accumulate_until_now s now).break_start = s.break_start := by
  unfold accumulate_until_now
  rcases hlu : s.last_update with _ | lu <;> simp [hlu] <;> split_ifs <;> simp

theorem accumulate_session_start (s : Session) (now : Int) :
    (accumulate_until_now s now).session_start = s.session_start := by
  unfold accumulate_until_now
  rcases hlu : s.last_update with _ | lu <;> simp [hlu] <;> split_ifs <;> simp

theorem accumulate_erp_in_time (s : Session) (now : Int) :
    (accumulate_until_now s now).erp_in_time = s.erp_in_time := by
  unfold accumulate_until_now
  rcases hlu : s.last_update with _ | lu <;> simp [hlu] <;> split_ifs <;> simp

theorem accumulate_erp_out_time (s : Session) (now : Int) :
    (accumulate_until_now s now).erp_out_time = s.erp_out_time := by
  unfold accumulate_until_now
  rcases hlu : s.last_update with _ | lu <;> simp [hlu] <;> split_ifs <;> simp

theorem accumulate_erp_break_seconds (s : Session) (now : Int) :
    (accumulate_until_now s now).erp_break_seconds = s.erp_break_seconds := by
  unfold accumulate_until_now
  rcases hlu : s.last_update with _ | lu <;> simp [hlu] <;> split_ifs <;> simp

theorem accumulate_erp_active_seconds (s : Session) (now : Int) :
    (accumulate_until_now s now).erp_active_seconds = s.erp_active_seconds := by
  unfold accumulate_until_now
  rcases hlu : s.last_update with _ | lu <;> simp [hlu] <;> split_ifs <;> simp

theorem accumulate_erp_state_hint (s : Session) (now : Int) :
    (accumulate_until_now s now).erp_state_hint = s.erp_state_hint := by
  unfold accumulate_until_now
  rcases hlu : s.last_update with _ | lu <;> simp [hlu] <;> split_ifs <;> simp

theorem accumulate_erp_break_open (s : Session) (now : Int) :
    (accumulate_until_now s now).erp_break_open = s.erp_break_open := by
  unfold accumulate_until_now
  rcases hlu : s.last_update with _ | lu <;> simp [hlu] <;> split_ifs <;> simp

theorem accumulate_sleep_gap_prehandled (s : Session) (now : Int) :
    (accumulate_until_now s now).sleep_gap_prehandled = s.sleep_gap_prehandled := by
  unfold accumulate_until_now
  rcases hlu : s.last_update with _ | lu <;> simp [hlu] <;> split_ifs <;> simp

theorem accumulate_sleep_events (s : Session) (now : Int) :
    (accumulate_until_now s now).sleep_events = s.sleep_events := by
  unfold accumulate_until_now
  rcases hlu : s.last_update with _ | lu <;> simp [hlu] <;> split_ifs <;> simp

theorem accumulate_last_tick (s : Session) (now : Int) :
    (accumulate_until_now s now).last_tick = s.last_tick := by
  unfold accumulate_until_now
  rcases hlu : s.last_update with _ | lu <;> simp [hlu] <;> split_ifs <;> simp

theorem accumulate_break_le (s : Session) (now : Int) :
    s.break_seconds ≤ (accumulate_until_now s now).break_seconds := by
  unfold accumulate_until_now
  rcases hlu : s.last_update with _ | lu <;> simp [hlu]
  split_ifs <;> simp <;> omega

/-- C2: a positive delta is routed to exactly one bucket by the current
state: active while clocked in and not idle; break while clocked in and
idle at least `IDLE_TIMEOUT_SECONDS`; idle while clocked in and idle below
the timeout; break unconditionally while on break; no bucket while logged
out — and the two other buckets are unchanged in every case. -/
theorem accumulate_routes_delta_by_state (s : Session) (lu now : Int)
    (hlu : s.last_update = some lu) (hpos : 0 < now - lu) :
    (s.state = SessionState.clocked_in → s.is_idle = false →
      (accumulate_until_now s now).active_seconds = s.active_seconds + (now - lu)
      ∧ (accumulate_until_now s now).break_seconds = s.break_seconds
      ∧ (accumulate_until_now s now).idle_seconds = s.idle_seconds)
  ∧ (s.state = SessionState.clocked_in → s.is_idle = true →
      IDLE_TIMEOUT_SECONDS ≤ s.current_idle_seconds →
      (accumulate_until_now s now).break_seconds = s.break_seconds + (now - lu)
      ∧ (accumulate_until_now s now).active_seconds = s.active_seconds
      ∧ (accumulate_until_now s now).idle_seconds = s.idle_seconds)
  ∧ (s.state = SessionState.clocked_in → s.is_idle = true →
      s.current_idle_seconds < IDLE_TIMEOUT_SECONDS →
      (accumulate_until_now s now).idle_seconds = s.idle_seconds + (now - lu)
      ∧ (accumulate_until_now s now).active_seconds = s.active_seconds
      ∧ (accumulate_until_now s now).break_seconds = s.break_seconds)
  ∧ (s.state = SessionState.on_break →
      (accumulate_until_now s now).break_seconds = s.break_seconds + (now - lu)
      ∧ (accumulate_until_now s now).active_seconds = s.active_seconds
      ∧ (accumulate_until_now s now).idle_seconds = s.idle_seconds)
  ∧ (s.state = SessionState.logged_out →
      (accumulate_until_now s now).active_seconds = s.active_seconds
      ∧ (accumulate_until_now s now).break_seconds = s.break_seconds
      ∧ (accumulate_until_now s now).idle_seconds = s.idle_seconds) := by
  refine ⟨?_, ?_, ?_, ?_, ?_⟩ <;> intro h1 <;>
    unfold accumulate_until_now <;>
    simp only [hlu] <;>
    rw [if_neg (show ¬ now - lu ≤ 0 by omega)]
  · intro h2
    simp [h1, h2]
  · intro h2 h3
    simp [h1, h2, h3]
  · intro h2 h3
    simp [h1, h2, h3, not_le.mpr h3]
  · simp [h1]
  · simp [h1]

theorem accumulate_routes_delta_by_state_witness :
    (accumulate_until_now
        { initSession with state := SessionState.clocked_in, last_update := some 0 }
        7).active_seconds
      = ({ initSession with
            state := SessionState.clocked_in,
            last_update := some 0 } : Session).active_seconds + (7 - 0)
  ∧ (accumulate_until_now
        { initSession with state := SessionState.clocked_in, last_update := some 0 }
        7).break_seconds
      = ({ initSession with
            state := SessionState.clocked_in,
            last_update := some 0 } : Session).break_seconds
  ∧ (accumulate_until_now
        { initSession with state := SessionState.clocked_in, last_update := some 0 }
        7).idle_seconds
      = ({ initSession with
            state := SessionState.clocked_in,
            last_update := some 0 } : Session).idle_seconds :=
  (accumulate_routes_delta_by_state
    { initSession with state := SessionState.clocked_in, last_update := some 0 }
    0 7 rfl (by decide)).1 rfl rfl

/-- C3 counterexample: with `last_update = 10` and `now = 5` (negative
delta), the accumulator returns with `last_update` still `10`, not `now`
— contradicting the claim that every call ends with `last_update = now`. -/
theorem accumulate_negative_delta_cex :
    (accumulate_until_now { initSession with last_update := some 10 } 5).last_update
        = some 10
  ∧ (accumulate_until_now { initSession with last_update := some 10 } 5).last_update
        ≠ some 5 := by
  constructor <;> decide

/-- C3 (amended): the accumulator sets `last_update = now` on the first
call and on every call with `delta = now - last_update ≥ 0`; when
`delta < 0` (clock skew backwards) it leaves `last_update` unchanged
rather than moving it backwards. -/
theorem accumulate_sets_last_update (s : Session) (now : Int) :
    (s.last_update = none → (accumulate_until_now s now).last_update = some now)
  ∧ (∀ lu, s.last_update = some lu → lu ≤ now →
      (accumulate_until_now s now).last_update = some now)
  ∧ (∀ lu, s.last_update = some lu → now < lu →
      (accumulate_until_now s now).last_update = some lu) := by
  refine ⟨?_, ?_, ?_⟩
  · intro h
    unfold accumulate_until_now
    simp [h]
  · intro lu hlu hle
    unfold accumulate_until_now
    simp only [hlu]
    rcases eq_or_lt_of_le hle with rfl | hlt
    · rw [if_pos (by omega)]
      exact hlu
    · rw [if_neg (by omega)]
      split_ifs <;> simp
  · intro lu hlu hlt
    unfold accumulate_until_now
    simp only [hlu]
    rw [if_pos (by omega)]
    exact hlu

theorem accumulate_sets_last_update_witness :
    (accumulate_until_now { initSession with last_update := some 3 } 8).last_update
      = some 8 :=
  (accumulate_sets_last_update { initSession with last_update := some 3 } 8).2.1
    3 rfl (by decide)

/-! ## Break operations -/

/-- C4: `start_break` fails and changes nothing unless the session is
clocked in with no locally open break; otherwise it flushes accumulation,
moves to on-break with `break_start = now`, sends the remote break-start
call exactly when `erp_break_open` was false, and records the open break
on success (`erp_break_open` becomes `erp_break_open || api_ok`). -/
theorem start_break_spec (s : Session) (now : Int) (ok : Bool) :
    (s.state ≠ SessionState.clocked_in ∨ s.break_start ≠ none →
      start_break s now ok = ⟨s, false, 0⟩)
  ∧ (s.state = SessionState.clocked_in → s.break_start = none →
      (start_break s now ok).ok = true
      ∧ (start_break s now ok).session.state = SessionState.on_break
      ∧ (start_break s now ok).session.break_start = some now
      ∧ (start_break s now ok).session.active_seconds
          = (accumulate_until_now s now).active_seconds
      ∧ (start_break s now ok).session.break_seconds
          = (accumulate_until_now s now).break_seconds
      ∧ (start_break s now ok).session.idle_seconds
          = (accumulate_until_now s now).idle_seconds
      ∧ (start_break s now ok).session.last_update
          = (accumulate_until_now s now).last_update
      ∧ (start_break s now ok).session.erp_break_open = (s.erp_break_open || ok)
      ∧ (start_break s now ok).remote_break_starts
          = (if s.erp_break_open then 0 else 1)) := by
  constructor
  · intro h
    unfold start_break
    rw [if_pos h]
  · intro h1 h2
    unfold start_break
    rw [if_neg (by simp [h1, h2])]
    cases hob : s.erp_break_open <;> cases ok <;>
      simp [hob, accumulate_erp_break_open]

theorem start_break_spec_witness :
    start_break initSession 3 true = ⟨initSession, false, 0⟩ :=
  (start_break_spec initSession 3 true).1 (by decide)

/-- C9: with the session clocked in and no recorded `break_start`,
`end_break` — even with `force = true` — is a total no-op returning
failure: the session is unchanged and remains clocked in (force only
overrides the not-on-break guard when a `break_start` exists). -/
theorem end_break_force_without_start (s : Session) (force : Bool) (now : Int) (ok : Bool)
    (h1 : s.state = SessionState.clocked_in) (h2 : s.break_start = none) :
    end_break s force now ok = ⟨s, false, 0⟩
  ∧ (end_break s force now ok).session.state = SessionState.clocked_in := by
  have hne : s.state ≠ SessionState.on_break := by simp [h1]
  have heq : end_break s force now ok = ⟨s, false, 0⟩ := by
    unfold end_break
    rw [if_pos ⟨hne, Or.inr h2⟩]
  exact ⟨heq, by rw [heq]; exact h1⟩

theorem end_break_force_without_start_witness :
    end_break (clock_in initSession 0) true 5 true = ⟨clock_in initSession 0, false, 0⟩
  ∧ (end_break (clock_in initSession 0) true 5 true).session.state
      = SessionState.clocked_in :=
  end_break_force_without_start (clock_in initSession 0) true 5 true
    (by decide) (by decide)

/-! ## Server totals merge -/

/-- C10: `apply_server_totals` never moves `session_start` forward: when
the parsed server in-time is not strictly earlier than the current
non-null `session_start`, `session_start` is unchanged while
`erp_in_time` is still overwritten; `session_start` is assigned exactly
when it is null or the server in-time is strictly earlier. -/
theorem apply_server_totals_never_advances_start (s : Session) (t0 t : Int)
    (ot bs acts : Option Int) (ob : Option Bool) (now : Int) :
    (s.session_start = some t0 → t0 ≤ t →
      (apply_server_totals s (some t) ot bs acts ob now).session_start = some t0
      ∧ (apply_server_totals s (some t) ot bs acts ob now).erp_in_time = some t)
  ∧ (s.session_start = none →
      (apply_server_totals s (some t) ot bs acts ob now).session_start = some t)
  ∧ (s.session_start = some t0 → t < t0 →
      (apply_server_totals s (some t) ot bs acts ob now).session_start = some t) := by
  refine ⟨?_, ?_, ?_⟩
  · intro hss hle
    have hnlt : ¬ t < t0 := not_lt.mpr hle
    rcases ot with _ | o <;> rcases bs with _ | b <;> rcases acts with _ | a2 <;>
      rcases ob with _ | b2 <;>
      rcases hhint : s.erp_state_hint with _ | hint <;>
      simp [apply_server_totals, hss, hnlt, hhint] <;>
      (try split_ifs) <;> simp
  · intro hss
    rcases ot with _ | o <;> rcases bs with _ | b <;> rcases acts with _ | a2 <;>
      rcases ob with _ | b2 <;>
      rcases hhint : s.erp_state_hint with _ | hint <;>
      simp [apply_server_totals, hss, hhint] <;>
      (try split_ifs) <;> simp
  · intro hss hlt
    rcases ot with _ | o <;> rcases bs with _ | b <;> rcases acts with _ | a2 <;>
      rcases ob with _ | b2 <;>
      rcases hhint : s.erp_state_hint with _ | hint <;>
      simp [apply_server_totals, hss, hlt, hhint] <;>
      (try split_ifs) <;> simp

theorem apply_server_totals_never_advances_start_witness :
    (apply_server_totals { initSession with session_start := some 4 }
        (some 9) none none none none 20).session_start = some 4
  ∧ (apply_server_totals { initSession with session_start := some 4 }
        (some 9) none none none none 20).erp_in_time = some 9 :=
  (apply_server_totals_never_advances_start { initSession with session_start := some 4 }
    4 9 none none none none 20).1 rfl (by decide)

/-- C7: whenever `erp_active_seconds` is present (necessarily
non-negative, as the merger clamps it), `get_daily_summary` formats
`total_active_time` directly from it, ignoring the locally accumulated
`active_seconds`. -/
theorem daily_summary_erp_active_precedence (s : Session) (now : Int) (a : Int)
    (ha : s.erp_active_seconds = some a) (hnn : 0 ≤ a) :
    (get_daily_summary s now).1.total_active_time = format_hms a := by
  unfold get_daily_summary
  simp [accumulate_erp_active_seconds, ha, max_eq_right hnn]

theorem daily_summary_erp_active_precedence_witness :
    (get_daily_summary
        { initSession with
            state := SessionState.clocked_in
            active_seconds := 10
            erp_active_seconds := some 3600 } 0).1.total_active_time
      = ['0', '1', ':', '0', '0', ':', '0', '0'] := by
  rw [daily_summary_erp_active_precedence _ 0 3600 rfl (by decide)]
  decide

/-! ## Per-operation effects on the break-invariant fields -/

theorem clock_in_fields (s : Session) (now : Int) :
    (clock_in s now).state = SessionState.clocked_in
  ∧ (clock_in s now).break_start = none
  ∧ (clock_in s now).erp_state_hint = none := by
  simp only [clock_in, clear_erp_overrides]
  split_ifs <;> simp

theorem clock_out_fields (s : Session) (now : Int) :
    (clock_out s now).state = SessionState.logged_out
  ∧ (clock_out s now).break_start = s.break_start
  ∧ (clock_out s now).erp_state_hint = s.erp_state_hint := by
  unfold clock_out
  exact ⟨rfl, accumulate_break_start s now, accumulate_erp_state_hint s now⟩

theorem start_break_fields (s : Session) (now : Int) (ok : Bool) :
    (start_break s now ok).session = s
  ∨ ((start_break s now ok).session.state = SessionState.on_break
     ∧ (start_break s now ok).session.break_start = some now
     ∧ (start_break s now ok).session.erp_state_hint = s.erp_state_hint) := by
  simp only [start_break]
  split_ifs <;>
    first
      | (left; rfl)
      | (right; simp [accumulate_erp_state_hint])

theorem end_break_fields (s : Session) (force : Bool) (now : Int) (ok : Bool) :
    (end_break s force now ok).session = s
  ∨ ((end_break s force now ok).session.state = SessionState.clocked_in
     ∧ (end_break s force now ok).session.break_start = none
     ∧ (end_break s force now ok).session.erp_state_hint = s.erp_state_hint) := by
  simp only [end_break]
  split_ifs <;>
    first
      | (left; rfl)
      | (right; simp [accumulate_erp_state_hint])

theorem update_activity_fields (s : Session) (a : Bool) (idle now : Int) :
    (update_activity s a idle now).state = s.state
  ∧ (update_activity s a idle now).break_start = s.break_start
  ∧ (update_activity s a idle now).erp_state_hint = s.erp_state_hint := by
  unfold update_activity
  refine ⟨?_, ?_, ?_⟩
  · rw [accumulate_state]
  · rw [accumulate_break_start]
  · rw [accumulate_erp_state_hint]

theorem apply_server_totals_none_fields (s : Session)
    (it ot bs acts : Option Int) (now : Int) (hh : s.erp_state_hint = none) :
    (apply_server_totals s it ot bs acts none now).state = s.state
  ∧ (apply_server_totals s it ot bs acts none now).break_start = s.break_start
  ∧ (apply_server_totals s it ot bs acts none now).erp_state_hint = none := by
  rcases it with _ | t <;> rcases ot with _ | o <;> rcases bs with _ | b <;>
    rcases acts with _ | a2 <;>
    rcases hss : s.session_start with _ | t0 <;>
    simp [apply_server_totals, hh, hss] <;>
    (try split_ifs) <;> simp

theorem power_tick_fields (s : Session) (now : Int) :
    ((power_tick s now).session.state = s.state
     ∧ (power_tick s now).session.break_start = s.break_start
     ∧ (power_tick s now).session.erp_state_hint = s.erp_state_hint)
  ∨ ((power_tick s now).session.state = SessionState.on_break
     ∧ (power_tick s now).session.break_start ≠ none
     ∧ (power_tick s now).session.erp_state_hint = s.erp_state_hint) := by
  simp only [power_tick, record_sleep_event]
  rcases htick : s.last_tick with _ | tick <;> simp only [htick]
  · left; simp
  · split_ifs <;>
      first
        | (left; simp [accumulate_erp_state_hint]; done)
        | (right; simp [accumulate_erp_state_hint]; done)

/-! ## The break-start/state invariant -/

theorem reachR_inv (s : Session) (h : ReachR s) :
    BreakInv s ∧ s.erp_state_hint = none := by
  induction h with
  | init => exact ⟨by decide, rfl⟩
  | clockIn s now _ _ =>
    obtain ⟨h1, h2, h3⟩ := clock_in_fields s now
    exact ⟨by unfold BreakInv; rw [h1, h2]; simp, h3⟩
  | clockOut s now hne _ ih =>
    obtain ⟨h1, h2, h3⟩ := clock_out_fields s now
    have hbs : s.break_start = none := by
      by_contra hc
      exact hne (ih.1.mp hc)
    refine ⟨by unfold BreakInv; rw [h1, h2, hbs]; simp, h3.trans ih.2⟩
  | startBreak s now ok _ ih =>
    rcases start_break_fields s now ok with heq | ⟨h1, h2, h3⟩
    · rw [heq]; exact ih
    · exact ⟨by unfold BreakInv; rw [h1, h2]; simp, h3.trans ih.2⟩
  | endBreak s force now ok _ ih =>
    rcases end_break_fields s force now ok with heq | ⟨h1, h2, h3⟩
    · rw [heq]; exact ih
    · exact ⟨by unfold BreakInv; rw [h1, h2]; simp, h3.trans ih.2⟩
  | updateActivity s a idle now _ ih =>
    obtain ⟨h1, h2, h3⟩ := update_activity_fields s a idle now
    refine ⟨?_, h3.trans ih.2⟩
    unfold BreakInv at ih ⊢
    rw [h1, h2]
    exact ih.1
  | applyServerTotals s it ot bs acts now _ ih =>
    obtain ⟨h1, h2, h3⟩ := apply_server_totals_none_fields s it ot bs acts now ih.2
    refine ⟨?_, h3⟩
    unfold BreakInv at ih ⊢
    rw [h1, h2]
    exact ih.1
  | flush s now _ ih =>
    refine ⟨?_, (accumulate_erp_state_hint s now).trans ih.2⟩
    unfold BreakInv at ih ⊢
    rw [accumulate_state, accumulate_break_start]
    exact ih.1
  | tick s now _ ih =>
    rcases power_tick_fields s now with ⟨h1, h2, h3⟩ | ⟨h1, h2, h3⟩
    · refine ⟨?_, h3.trans ih.2⟩
      unfold BreakInv at ih ⊢
      rw [h1, h2]
      exact ih.1
    · exact ⟨by unfold BreakInv; rw [h1]; simp [h2], h3.trans ih.2⟩

/-- C1 counterexample: clock in at 0, start a break at 5, clock out at 10
while still on the break.  The resulting reachable session is logged out
yet `break_start` is still `some 5` — `clock_out` never clears it — so
the claimed invariant fails. -/
theorem clock_out_keeps_break_start_cex :
    Reach cexClockOutOnBreak
  ∧ cexClockOutOnBreak.break_start = some 5
  ∧ cexClockOutOnBreak.state = SessionState.logged_out
  ∧ ¬ BreakInv cexClockOutOnBreak := by
  refine ⟨?_, by decide, by decide, by decide⟩
  exact Reach.clockOut _ 10 (Reach.startBreak _ 5 true (Reach.clockIn _ 0 Reach.init))

/-- C1 (amended): `break_start != null ⇔ state == OnBreak` holds in every
session reachable by clock-in, start-break, end-break, activity updates,
accumulation flushes, gap-detector ticks, `clock_out` invoked while not
on a break, and `apply_server_totals` without an `on_break` value.  (It
fails on full reachability: `clock_out` during a break keeps
`break_start`, and adopting a server `on_break` hint changes `state`
without touching `break_start`.) -/
theorem break_inv_of_reachR (s : Session) (h : ReachR s) : BreakInv s :=
  (reachR_inv s h).1

theorem break_inv_of_reachR_witness : BreakInv (clock_in initSession 0) :=
  break_inv_of_reachR (clock_in initSession 0) (ReachR.clockIn initSession 0 ReachR.init)

/-! ## Remote break-start call deduplication -/

theorem start_break_emit_le_one (s : Session) (now : Int) (ok : Bool) :
    (start_break s now ok).remote_break_starts ≤ 1 := by
  simp only [start_break]
  split_ifs <;> simp

theorem power_tick_emit_le_one (s : Session) (now : Int) :
    (power_tick s now).remote_break_starts ≤ 1 := by
  simp only [power_tick, record_sleep_event]
  rcases htick : s.last_tick with _ | tick <;> simp only [htick] <;>
    (try split_ifs) <;> simp

theorem start_break_emit_zero_of_not_clocked_in (s : Session) (now : Int) (ok : Bool)
    (h : s.state ≠ SessionState.clocked_in) :
    (start_break s now ok).remote_break_starts = 0 := by
  simp only [start_break]
  rw [if_pos (Or.inl h)]

theorem power_tick_emit_zero_of_not_clocked_in (s : Session) (now : Int)
    (h : s.state ≠ SessionState.clocked_in) :
    (power_tick s now).remote_break_starts = 0 := by
  simp only [power_tick, record_sleep_event]
  rcases htick : s.last_tick with _ | tick <;> simp only [htick] <;>
    (try split_ifs) <;> simp_all

theorem start_break_state_of_emit (s : Session) (now : Int) (ok : Bool)
    (h : (start_break s now ok).remote_break_starts ≠ 0) :
    (start_break s now ok).session.state = SessionState.on_break := by
  simp only [start_break] at h ⊢
  split_ifs at h ⊢ <;> simp_all

theorem power_tick_state_of_emit (s : Session) (now : Int)
    (h : (power_tick s now).remote_break_starts ≠ 0) :
    (power_tick s now).session.state = SessionState.on_break := by
  simp only [power_tick, record_sleep_event] at h ⊢
  rcases htick : s.last_tick with _ | tick <;> simp only [htick] at h ⊢
  · simp at h
  · split_ifs at h ⊢ <;> simp_all

/-- C5 counterexample: clock in at 0, start a break at 5 with the remote
call succeeding (`erp_break_open := true`), end the break at 10 with the
remote break-end call failing (`erp_break_open` stays true).  A
gap-detector tick at 100 then issues a remote break-start call even
though `erp_break_open` is still true — the sleep path never consults the
flag. -/
theorem sleep_break_call_with_erp_open_cex :
    Reach cexSleepDupBreak
  ∧ cexSleepDupBreak.erp_break_open = true
  ∧ (power_tick cexSleepDupBreak 100).remote_break_starts = 1 := by
  refine ⟨?_, by decide, by decide⟩
  exact Reach.endBreak _ false 10 false
    (Reach.startBreak _ 5 true (Reach.clockIn _ 0 Reach.init))

/-- C5 (amended): a manual `start_break` never issues the remote
break-start call while `erp_break_open` is true; the gap detector does
not consult that flag (counterexample above), but when a sleep-
synthesized break and a manual break race — executed back to back in
either order — at most one remote break-start call is issued in total,
guarded by the `break_start`/state checks. -/
theorem break_start_call_dedup (s : Session) (t1 t2 : Int) (ok1 ok2 : Bool) :
    (s.erp_break_open = true → (start_break s t1 ok1).remote_break_starts = 0)
  ∧ (power_tick s t1).remote_break_starts
      + (start_break (power_tick s t1).session t2 ok2).remote_break_starts ≤ 1
  ∧ (start_break s t1 ok1).remote_break_starts
      + (power_tick (start_break s t1 ok1).session t2).remote_break_starts ≤ 1 := by
  refine ⟨?_, ?_, ?_⟩
  · intro h
    simp only [start_break]
    split_ifs with hg hob
    · rfl
    · rfl
    · rw [accumulate_erp_break_open] at hob
      exact absurd h hob
  · by_cases h0 : (power_tick s t1).remote_break_starts = 0
    · have h1 := start_break_emit_le_one (power_tick s t1).session t2 ok2
      omega
    · have hstate := power_tick_state_of_emit s t1 h0
      have h2 : (start_break (power_tick s t1).session t2 ok2).remote_break_starts = 0 :=
        start_break_emit_zero_of_not_clocked_in _ t2 ok2 (by rw [hstate]; decide)
      have h1 := power_tick_emit_le_one s t1
      omega
  · by_cases h0 : (start_break s t1 ok1).remote_break_starts = 0
    · have h1 := power_tick_emit_le_one (start_break s t1 ok1).session t2
      omega
    · have hstate := start_break_state_of_emit s t1 ok1 h0
      have h2 : (power_tick (start_break s t1 ok1).session t2).remote_break_starts = 0 :=
        power_tick_emit_zero_of_not_clocked_in _ t2 (by rw [hstate]; decide)
      have h1 := start_break_emit_le_one s t1 ok1
      omega

theorem break_start_call_dedup_witness :
    (start_break
        { initSession with
            state := SessionState.clocked_in, erp_break_open := true }
        3 true).remote_break_starts = 0
  ∧ (power_tick
        { initSession with
            state := SessionState.clocked_in, erp_break_open := true }
        3).remote_break_starts
      + (start_break
          (power_tick
            { initSession with
                state := SessionState.clocked_in, erp_break_open := true }
            3).session 4 true).remote_break_starts ≤ 1
  ∧ (start_break
        { initSession with
            state := SessionState.clocked_in, erp_break_open := true }
        3 true).remote_break_starts
      + (power_tick
          (start_break
            { initSession with
                state := SessionState.clocked_in, erp_break_open := true }
            3 true).session 4).remote_break_starts ≤ 1 :=
  ⟨(break_start_call_dedup
      { initSession with state := SessionState.clocked_in, erp_break_open := true }
      3 4 true true).1 rfl,
   (break_start_call_dedup
      { initSession with state := SessionState.clocked_in, erp_break_open := true }
      3 4 true true).2.1,
   (break_start_call_dedup
      { initSession with state := SessionState.clocked_in, erp_break_open := true }
      3 4 true true).2.2⟩

/-! ## Suspend-gap detector -/

/-- C6 counterexample: the gap-detector tick can fire right after a
clock-out (the worker observes the stop flag only at the top of its
loop).  Clock in at 0, clock out at 10, tick at 400: the 390-second gap
exceeds the 60-second threshold, yet `break_seconds` is unchanged because
the session is logged out — the addition is not unconditional. -/
theorem power_tick_logged_out_cex :
    Reach cexLoggedOutTick
  ∧ cexLoggedOutTick.state = SessionState.logged_out
  ∧ cexLoggedOutTick.last_tick = some 0
  ∧ 60 < (400 : Int) - 0 - monitor_interval_seconds
  ∧ (power_tick cexLoggedOutTick 400).session.break_seconds
      = cexLoggedOutTick.break_seconds
  ∧ (power_tick cexLoggedOutTick 400).session.break_seconds
      ≠ cexLoggedOutTick.break_seconds + ((400 : Int) - 0 - monitor_interval_seconds) := by
  refine ⟨?_, by decide, by decide, by decide, by decide, by decide⟩
  exact Reach.clockOut _ 10 (Reach.clockIn _ 0 Reach.init)

/-- C6 (amended): on a gap-detector tick with
`elapsed - T > 60` the detector always advances `last_update = now`,
updates `last_tick`, and records the sleep event
`{date, sleep_start, wake_time, duration_seconds}`; it adds
`sleep_duration = elapsed - T` to `break_seconds` when the session is
clocked in or on a break (on top of the accumulation flush performed when
it synthesizes a sleep break), but leaves `break_seconds` unchanged while
logged out. -/
theorem power_tick_gap_spec (s : Session) (tick now : Int)
    (htick : s.last_tick = some tick)
    (hgap : 60 < now - tick - monitor_interval_seconds) :
    (power_tick s now).session.last_update = some now
  ∧ (power_tick s now).session.last_tick = some now
  ∧ (power_tick s now).session.sleep_events
      = s.sleep_events ++
          [⟨tsDate now, now - (now - tick - monitor_interval_seconds), now,
            now - tick - monitor_interval_seconds⟩]
  ∧ (s.state = SessionState.on_break →
      (power_tick s now).session.break_seconds
        = s.break_seconds + (now - tick - monitor_interval_seconds))
  ∧ (s.state = SessionState.clocked_in →
      s.break_seconds + (now - tick - monitor_interval_seconds)
        ≤ (power_tick s now).session.break_seconds)
  ∧ (s.state = SessionState.logged_out ∨ s.state = SessionState.idle →
      (power_tick s now).session.break_seconds = s.break_seconds) := by
  have hdur : (0 : Int) ⊔ (now - tick - monitor_interval_seconds)
      = now - tick - monitor_interval_seconds := max_eq_right (by omega)
  have hble := accumulate_break_le s now
  simp only [power_tick, record_sleep_event, htick]
  rw [if_pos hgap]
  refine ⟨?_, ?_, ?_, ?_, ?_, ?_⟩
  · split_ifs <;> simp
  · split_ifs <;> simp
  · split_ifs <;> simp [accumulate_sleep_events, hdur]
  · intro h1
    split_ifs <;> simp_all [hdur]
  · intro h1
    split_ifs <;> simp_all [hdur]
  · intro h1
    rcases h1 with h1 | h1 <;> split_ifs <;> simp_all

theorem power_tick_gap_spec_witness :
    (power_tick
        { initSession with
            state := SessionState.on_break, break_start := some 0,
            break_seconds := 7, last_tick := some 0 }
        400).session.last_update = some 400
  ∧ (power_tick
        { initSession with
            state := SessionState.on_break, break_start := some 0,
            break_seconds := 7, last_tick := some 0 }
        400).session.break_seconds
      = ({ initSession with
            state := SessionState.on_break, break_start := some 0,
            break_seconds := 7, last_tick := some 0 } : Session).break_seconds
        + (400 - 0 - monitor_interval_seconds) := by
  have h := power_tick_gap_spec
    { initSession with
        state := SessionState.on_break, break_start := some 0,
        break_seconds := 7, last_tick := some 0 }
    0 400 rfl (by decide)
  exact ⟨h.1, h.2.2.2.1 rfl⟩

end SessionManager

end Tracker
